import Mathlib

/-!
Shallow embedding of the sktablelayout table-layout engine (src/lib.rs).

Modelling conventions:
* `f32` is modelled by `ℚ`.  Every concrete value appearing in the theorems
  below is a small dyadic rational on which `f32` arithmetic is exact.
  The one place the models diverge is division by zero (`NaN` in `f32`,
  `0` in `ℚ`); theorems about the deficit solver therefore carry an
  explicit `total_slack > 0` hypothesis, and every concrete input avoids
  a zero total slack.
* `u8` counters (`row`, `col`, `colspan` accumulators) wrap modulo 256,
  matching release-mode Rust semantics; this is written as `% 256`.
* `Vec` indexing panics when out of bounds; a panic is modelled by
  `Option`: every fallible pass returns `none` exactly when the Rust
  code would panic with an index-out-of-bounds.
* A positioning callback (`Box<FnMut(f32,f32,f32,f32)>`) is modelled by
  an identifier `Option Nat`; an `impose` run produces the list of
  callback invocations `(id, x, y, w, h)` in order.
-/

namespace STL

/-- Rectangle for padding and spacing constraints (struct `Rectangle`). -/
structure Rectangle where
  top : ℚ
  left : ℚ
  bottom : ℚ
  right : ℚ
deriving DecidableEq, Repr

/-- The all-zero rectangle, Rust `Rectangle::default()`. -/
def Rectangle.default : Rectangle := ⟨0, 0, 0, 0⟩

/-- Individual size constraint for a cell (struct `Size`). -/
structure Size where
  width : ℚ
  height : ℚ
deriving DecidableEq, Repr

/-- `Size::join_max`: pointwise maximum. -/
def Size.join_max (a b : Size) : Size :=
  ⟨max a.width b.width, max a.height b.height⟩

/-- `Size::join_min`: pointwise minimum. -/
def Size.join_min (a b : Size) : Size :=
  ⟨min a.width b.width, min a.height b.height⟩

/-- `Size::spread`: divides width and height by a division level. -/
def Size.spread (s : Size) (divisions : ℚ) : Size :=
  ⟨s.width / divisions, s.height / divisions⟩

/-- `Size::padded`: adds padding from a padding rectangle. -/
def Size.padded (s : Size) (padding : Rectangle) : Size :=
  ⟨s.width + padding.left + padding.right,
   s.height + padding.top + padding.bottom⟩

/-- `Size::within`: whether this size should fit within another size. -/
def Size.within (s other : Size) : Prop :=
  other.width > s.width ∧ other.height > s.height

/-- `f32::MAX` as an exact rational: `(2 - 2⁻²³) · 2¹²⁷ = 2¹²⁸ - 2¹⁰⁴`,
written as a numeral so that it evaluates by kernel reduction. -/
def f32MAX : ℚ := 340282346638528859811704183484516925440

/-- Combines the maximum, minimum and preferred sizes for a cell
(struct `SizeGrouping`). -/
structure SizeGrouping where
  minimum : Size
  maximum : Size
  preferred : Size
deriving DecidableEq, Repr

/-- `SizeGrouping::default()`: zero minimum and preferred, `f32::MAX` maximum. -/
def SizeGrouping.default : SizeGrouping :=
  { minimum := ⟨0, 0⟩, preferred := ⟨0, 0⟩, maximum := ⟨f32MAX, f32MAX⟩ }

/-- `SizeGrouping::join`: widen minima and preferreds (pointwise max),
narrow maxima (pointwise min). -/
def SizeGrouping.join (a b : SizeGrouping) : SizeGrouping :=
  { minimum := Size.join_max a.minimum b.minimum
    preferred := Size.join_max a.preferred b.preferred
    maximum := Size.join_min a.maximum b.maximum }

/-- `SizeGrouping::spread`: divide all three sizes by a division level. -/
def SizeGrouping.spread (s : SizeGrouping) (divisions : ℚ) : SizeGrouping :=
  { minimum := s.minimum.spread divisions
    maximum := s.maximum.spread divisions
    preferred := s.preferred.spread divisions }

/-- `SizeGrouping::padded`: add padding to all three sizes. -/
def SizeGrouping.padded (s : SizeGrouping) (padding : Rectangle) : SizeGrouping :=
  { minimum := s.minimum.padded padding
    maximum := s.maximum.padded padding
    preferred := s.preferred.padded padding }

/-- The `CellFlags` bitset, one independent boolean per bit of the Rust
`bitflags!` declaration. -/
structure CellFlags where
  expandHorizontal : Bool := false
  expandVertical : Bool := false
  fillHorizontal : Bool := false
  fillVertical : Bool := false
  anchorTop : Bool := false
  anchorBottom : Bool := false
  anchorLeft : Bool := false
  anchorRight : Bool := false
  anchorHorizontalCenter : Bool := false
  anchorVerticalCenter : Bool := false
  uniform : Bool := false
deriving DecidableEq, Repr

/-- `CellFlags::None`: the empty flag set. -/
def CellFlags.none : CellFlags := {}

/-- Encapsulates all properties for a cell (struct `CellProperties`);
the positioning callback is modelled by an identifier. -/
structure CellProperties where
  size : SizeGrouping
  flags : CellFlags
  colspan : Nat
  padding : Rectangle
  callback : Option Nat
deriving DecidableEq, Repr

/-- `CellProperties::default()`: default sizes, no flags, colspan 1,
zero padding, no callback. -/
def CellProperties.default : CellProperties :=
  { size := SizeGrouping.default, flags := CellFlags.none, colspan := 1
    padding := Rectangle.default, callback := Option.none }

/-- `impl Clone for CellProperties`: copies size, flags, padding and
colspan, and always resets the callback to `None`. -/
def CellProperties.clone (cp : CellProperties) : CellProperties :=
  { size := cp.size, flags := cp.flags, padding := cp.padding
    colspan := cp.colspan, callback := Option.none }

/-- `SizeGrouping::box_fit`: fits an item of this grouping within `area`
subject to `prop`'s flags; returns `(x, y, w, h)`. -/
def SizeGrouping.box_fit (self : SizeGrouping) (area : Size) (prop : CellProperties) :
    ℚ × ℚ × ℚ × ℚ :=
  let pad_width := prop.padding.left + prop.padding.right
  let pad_height := prop.padding.top + prop.padding.bottom
  let w := if prop.flags.fillHorizontal then
      min self.maximum.width (area.width - pad_width)
    else
      min self.preferred.width (area.width - pad_width)
  let h := if prop.flags.fillVertical then
      min self.maximum.height (area.height - pad_height)
    else
      min self.preferred.height (area.height - pad_height)
  let x := if prop.flags.anchorRight then
      area.width - prop.padding.right - w
    else if prop.flags.anchorHorizontalCenter then
      area.width / 2 - w / 2
    else
      prop.padding.left
  let y := if prop.flags.anchorBottom then
      area.height - prop.padding.bottom - h
    else if prop.flags.anchorHorizontalCenter then
      area.height / 2 - h / 2
    else
      prop.padding.top
  (x, y, w, h)

/-- `enum LayoutOp`: place a cell, or break to a new row. -/
inductive LayoutOp where
  | cell (cp : CellProperties)
  | row
deriving DecidableEq, Repr

/-- `struct TableLayout`: opcode sequence, default templates and the
insertion cursor.  The `BTreeMap<u8, CellProperties>` default maps are
modelled as association lists keyed by the (numeric) index. -/
structure TableLayout where
  cell_defaults : CellProperties := CellProperties.default
  row_defaults : List (Nat × CellProperties) := []
  column_defaults : List (Nat × CellProperties) := []
  opcodes : List LayoutOp := []
  row : Nat := 0
  column : Nat := 0
deriving DecidableEq, Repr

/-- `BTreeMap::get` on the association-list model of the default maps. -/
def btreeGet (m : List (Nat × CellProperties)) (k : Nat) : Option CellProperties :=
  (m.find? (fun p => p.1 == k)).map Prod.snd

/-- `CellProperties::with_defaults`: column default for the current
column, else row default for the current row, else the fallback default;
all paths clone the template. -/
def CellProperties.with_defaults (layout : TableLayout) : CellProperties :=
  match btreeGet layout.column_defaults layout.column with
  | some cv => cv.clone
  | none =>
    match btreeGet layout.row_defaults layout.row with
    | some rv => rv.clone
    | none => layout.cell_defaults.clone

/-- `TableLayout::with_row`: append a row break, advance the insertion
cursor's row, reset its column. -/
def TableLayout.with_row (t : TableLayout) : TableLayout :=
  { t with opcodes := t.opcodes ++ [LayoutOp.row]
           row := (t.row + 1) % 256, column := 0 }

/-- `TableLayout::with_cell`: advance the insertion cursor's column by
the cell's span and append the cell opcode. -/
def TableLayout.with_cell (t : TableLayout) (properties : CellProperties) : TableLayout :=
  { t with column := (t.column + properties.colspan) % 256
           opcodes := t.opcodes ++ [LayoutOp.cell properties] }

/-- One step of `TableLayout::get_rows_cols`; the state is
`(cols, colcur, rows)`, all `u8` accumulators (wrapping mod 256). -/
def getRowsColsStep (s : Nat × Nat × Nat) (op : LayoutOp) : Nat × Nat × Nat :=
  match op with
  | LayoutOp.cell cp => (s.1, (s.2.1 + cp.colspan) % 256, s.2.2)
  | LayoutOp.row => (max s.1 s.2.1, 0, (s.2.2 + 1) % 256)

/-- `TableLayout::get_rows_cols`: returns `(rows, cols)`; a trailing row
with pending cells (`colcur > 0`) counts as one more row and folds into
the column maximum. -/
def TableLayout.get_rows_cols (t : TableLayout) : Nat × Nat :=
  let s := t.opcodes.foldl getRowsColsStep (0, 0, 0)
  if s.2.1 > 0 then ((s.2.2 + 1) % 256, max s.1 s.2.1) else (s.2.2, s.1)

/-- `TableLayout::clear`: discard opcodes and reset the insertion cursor. -/
def TableLayout.clear (t : TableLayout) : TableLayout :=
  { t with row := 0, column := 0, opcodes := [] }

/-- Write `v` at index `i`; `none` when `i` is out of bounds, exactly
when the Rust `Vec` write `v[i] = x` would panic. -/
def setIdx {α : Type} (l : List α) (i : Nat) (v : α) : Option (List α) :=
  if i < l.length then some (l.set i v) else none

/-- State of the measurement pass of `impose`. -/
structure MeasState where
  row : Nat
  col : Nat
  col_sizes : List SizeGrouping
  row_sizes : List SizeGrouping
  has_xexpand : List Bool
  has_yexpand : List Bool
deriving DecidableEq, Repr

/-- The inner `for _i in 0..cp.colspan` loop of the measurement pass:
mark the column as expanding when the cell expands horizontally, join
the spread (`midget`) grouping into the column accumulator, advance the
`u8` column cursor. -/
def measureSpan (midget : SizeGrouping) (expandH : Bool) :
    Nat → Nat → List SizeGrouping → List Bool → Option (Nat × List SizeGrouping × List Bool)
  | 0, col, col_sizes, has_x => some (col, col_sizes, has_x)
  | n + 1, col, col_sizes, has_x => do
    let has_x ← if expandH then setIdx has_x col true else some has_x
    let cur ← col_sizes.get? col
    let col_sizes ← setIdx col_sizes col (SizeGrouping.join cur midget)
    measureSpan midget expandH n ((col + 1) % 256) col_sizes has_x

/-- One opcode of the measurement pass of `impose`.  A span-0 cell is
skipped; otherwise the padded, spread grouping goes into the spanned
columns and the raw grouping into the current row. -/
def measureOp (st : MeasState) (op : LayoutOp) : Option MeasState :=
  match op with
  | LayoutOp.row => some { st with row := (st.row + 1) % 256, col := 0 }
  | LayoutOp.cell cp =>
    match cp.colspan with
    | 0 => some st
    | _ => do
      let midget := (cp.size.padded cp.padding).spread (cp.colspan : ℚ)
      let cur ← st.row_sizes.get? st.row
      let row_sizes ← setIdx st.row_sizes st.row (SizeGrouping.join cur cp.size)
      let has_y ← if cp.flags.expandVertical then
          setIdx st.has_yexpand st.row true
        else some st.has_yexpand
      let (col, col_sizes, has_x) ←
        measureSpan midget cp.flags.expandHorizontal cp.colspan st.col st.col_sizes st.has_xexpand
      some { st with col := col, col_sizes := col_sizes, row_sizes := row_sizes
                     has_xexpand := has_x, has_yexpand := has_y }

/-- The width-distribution solver of `impose` (surplus and deficit
branches over columns). -/
def distributeWidth (col_sizes : List SizeGrouping) (has_xexpand : List Bool)
    (width : ℚ) : List SizeGrouping :=
  let error := col_sizes.foldl (fun e c => e - c.preferred.width) width
  if error > 0 then
    let expansions := (has_xexpand.filter (fun x => x)).length
    if expansions > 0 then
      List.zipWith
        (fun c e => if e then
            { c with preferred :=
                { c.preferred with width := c.preferred.width + error / (expansions : ℚ) } }
          else c)
        col_sizes has_xexpand
    else col_sizes
  else if error < 0 then
    let error := -error
    let slack := col_sizes.map (fun c => c.preferred.width - c.minimum.width)
    let total_slack := slack.foldl (fun acc s => acc + s) 0
    let slack := slack.map (fun s => s - error * (s / total_slack))
    List.zipWith
      (fun c s =>
        { c with preferred :=
            { c.preferred with width := max (c.minimum.width + s) 0 } })
      col_sizes slack
  else col_sizes

/-- The height-distribution solver of `impose` (surplus and deficit
branches over rows). -/
def distributeHeight (row_sizes : List SizeGrouping) (has_yexpand : List Bool)
    (height : ℚ) : List SizeGrouping :=
  let error := row_sizes.foldl (fun e c => e - c.preferred.height) height
  if error > 0 then
    let expansions := (has_yexpand.filter (fun y => y)).length
    if expansions > 0 then
      List.zipWith
        (fun c e => if e then
            { c with preferred :=
                { c.preferred with height := c.preferred.height + error / (expansions : ℚ) } }
          else c)
        row_sizes has_yexpand
    else row_sizes
  else if error < 0 then
    let error := -error
    let slack := row_sizes.map (fun c => c.preferred.height - c.minimum.height)
    let total_slack := slack.foldl (fun acc s => acc + s) 0
    let slack := slack.map (fun s => s - error * (s / total_slack))
    List.zipWith
      (fun c s =>
        { c with preferred :=
            { c.preferred with height := max (c.minimum.height + s) 0 } })
      row_sizes slack
  else row_sizes

/-- A recorded callback invocation: callback identifier with the four
arguments `(x, y, w, h)` it was called with. -/
abbrev Event := Nat × ℚ × ℚ × ℚ × ℚ

/-- State of the placement pass of `impose`. -/
structure PlaceState where
  x : ℚ
  y : ℚ
  row : Nat
  col : Nat
  events : List Event
deriving DecidableEq, Repr

/-- The inner `for _i in 0..cp.colspan` loop of the placement pass:
accumulate the spanned columns' resolved preferred widths, advancing the
`u8` column cursor. -/
def spanWidth (col_sizes : List SizeGrouping) :
    Nat → ℚ → Nat → Option (ℚ × Nat)
  | 0, width, col => some (width, col)
  | n + 1, width, col => do
    let c ← col_sizes.get? col
    spanWidth col_sizes n (width + c.preferred.width) ((col + 1) % 256)

/-- One opcode of the placement pass of `impose`.  Note that the row
height `row_sizes[row]` is read before the opcode is examined, exactly
as in the source — this read can go out of bounds on any opcode. -/
def placeOp (col_sizes row_sizes : List SizeGrouping) (st : PlaceState)
    (op : LayoutOp) : Option PlaceState := do
  let rowSize ← row_sizes.get? st.row
  let height := rowSize.preferred.height
  match op with
  | LayoutOp.cell cp =>
    match cp.colspan with
    | 0 => some st
    | _ => do
      let (width, col) ← spanWidth col_sizes cp.colspan 0 st.col
      let s : Size := ⟨width, height⟩
      let b := cp.size.box_fit s cp
      let events := match cp.callback with
        | some id => st.events ++ [(id, st.x + b.1, st.y + b.2.1, b.2.2.1, b.2.2.2)]
        | none => st.events
      some { st with x := st.x + width, col := col, events := events }
  | LayoutOp.row =>
    some { st with x := 0, y := st.y + height, row := (st.row + 1) % 256, col := 0 }

/-- `TableLayout::impose`: the three-pass layout solve.  Returns the
ordered list of callback invocations, or `none` when the Rust code
panics (an out-of-bounds `Vec` index). -/
def TableLayout.impose (t : TableLayout) (width height : ℚ) : Option (List Event) :=
  let rc := t.get_rows_cols
  let total_rows := rc.1
  let total_cols := rc.2
  if total_cols = 0 then some []
  else do
    let st0 : MeasState :=
      { row := 0, col := 0
        col_sizes := List.replicate total_cols SizeGrouping.default
        row_sizes := List.replicate total_rows SizeGrouping.default
        has_xexpand := List.replicate total_cols false
        has_yexpand := List.replicate total_rows false }
    let st ← t.opcodes.foldlM measureOp st0
    let col_sizes := distributeWidth st.col_sizes st.has_xexpand width
    let row_sizes := distributeHeight st.row_sizes st.has_yexpand height
    let pst ← t.opcodes.foldlM (placeOp col_sizes row_sizes)
      { x := 0, y := 0, row := 0, col := 0, events := [] }
    some pst.events

/-- `impose` as a state transformer on the `TableLayout`: the Rust
function takes `&mut self` but contains no assignment to any field of
`self`, so the persisted layout it leaves behind is the input layout. -/
def TableLayout.imposeRun (t : TableLayout) (width height : ℚ) :
    TableLayout × Option (List Event) :=
  (t, t.impose width height)

/-- Two successive `impose` calls with the same dimensions, the second
running on whatever layout state the first left behind. -/
def TableLayout.imposeTwice (t : TableLayout) (width height : ℚ) :
    Option (List Event) × Option (List Event) :=
  let r1 := t.imposeRun width height
  let r2 := r1.1.imposeRun width height
  (r1.2, r2.2)

end STL

namespace STL

/-! ### Shared helper lemmas and concrete fixtures -/

/-- A cell with the given preferred size, default everything else, and a
callback identifier. -/
def prefCell (w h : ℚ) (cb : Nat) : CellProperties :=
  { CellProperties.default with
      size := { SizeGrouping.default with preferred := ⟨w, h⟩ }
      callback := some cb }

/-- A column or row grouping with preferred size 64×64 and defaults
elsewhere (what the measurement pass accumulates for a bare
64×64-preferred cell). -/
def colA : SizeGrouping := { SizeGrouping.default with preferred := ⟨64, 64⟩ }

theorem size_join_max_comm (a b : Size) : Size.join_max a b = Size.join_max b a := by
  simp [Size.join_max, max_comm]

theorem size_join_min_comm (a b : Size) : Size.join_min a b = Size.join_min b a := by
  simp [Size.join_min, min_comm]

theorem sizeGrouping_join_comm (a b : SizeGrouping) :
    SizeGrouping.join a b = SizeGrouping.join b a := by
  simp [SizeGrouping.join, size_join_max_comm, size_join_min_comm]

theorem sizeGrouping_join_idem (a : SizeGrouping) : SizeGrouping.join a a = a := by
  simp [SizeGrouping.join, Size.join_max, Size.join_min]

theorem sizeGrouping_join_right_comm (z x y : SizeGrouping) :
    SizeGrouping.join (SizeGrouping.join z x) y =
    SizeGrouping.join (SizeGrouping.join z y) x := by
  simp [SizeGrouping.join, Size.join_max, Size.join_min, sup_right_comm, inf_right_comm]

theorem foldl_join_perm {l₁ l₂ : List SizeGrouping} (p : l₁.Perm l₂) :
    ∀ b : SizeGrouping, l₁.foldl SizeGrouping.join b = l₂.foldl SizeGrouping.join b := by
  induction p with
  | nil => intro b; rfl
  | cons x _ ih => intro b; simpa using ih (SizeGrouping.join b x)
  | swap x y l =>
    intro b
    simp only [List.foldl_cons]
    rw [sizeGrouping_join_right_comm]
  | trans _ _ ih₁ ih₂ => intro b; exact (ih₁ b).trans (ih₂ b)

theorem zipWith_map_self_get {α β γ : Type} (f : α → β → γ) (k : α → β)
    (l : List α) (i : Nat) :
    (List.zipWith f l (l.map k)).get? i = (l.get? i).map (fun c => f c (k c)) := by
  induction l generalizing i with
  | nil => cases i <;> rfl
  | cons a l ih => cases i with
    | zero => rfl
    | succ n => simpa using ih n

end STL

namespace STL

/-! ### C1 -/

/-- The program whose last opcodes are a row break followed only by a
span-0 cell: one default cell, a row break, then a zero-span cell. -/
def trailingSpan0Program : TableLayout :=
  { opcodes := [LayoutOp.cell CellProperties.default, LayoutOp.row,
                LayoutOp.cell { CellProperties.default with colspan := 0 }] }

/-- C1: contrary to the claim that `impose` completes without raising an
error on every structurally valid program, the program
`[Cell(span 1), RowBreak, Cell(span 0)]` makes the placement pass read
`row_sizes[1]` while `row_sizes` has length 1 (`get_rows_cols` yields one
row), so `impose 32 32` panics with an index out of bounds — modelled
here as the result `none`. -/
theorem impose_trailing_rowbreak_span0_panics :
    trailingSpan0Program.get_rows_cols = (1, 1) ∧
    trailingSpan0Program.impose 32 32 = none := by
  constructor
  · decide
  · with_unfolding_all decide

/-! ### C2 -/

/-- C2: for every layout whose grid-shape discovery yields `cols = 0`,
`impose` returns immediately with the empty callback list, for every
width and height. -/
theorem impose_no_cols_early_return (t : TableLayout) (width height : ℚ)
    (h : t.get_rows_cols.2 = 0) : t.impose width height = some [] := by
  simp [TableLayout.impose, h]

/-- C2 witness: the empty program has `cols = 0` and `impose 320 240`
is an immediate no-op. -/
theorem impose_no_cols_early_return_witness :
    ({} : TableLayout).get_rows_cols.2 = 0 ∧
    ({} : TableLayout).impose 320 240 = some [] :=
  ⟨by decide, impose_no_cols_early_return {} 320 240 (by decide)⟩

/-! ### C5 -/

/-- A 10×10-preferred grouping for the vertical-centering fixture. -/
def sgVC : SizeGrouping := { SizeGrouping.default with preferred := ⟨10, 10⟩ }

/-- A cell flagged only anchor-vertical-center, with top padding 3. -/
def cpVC : CellProperties :=
  { CellProperties.default with
      flags := { anchorVerticalCenter := true }
      padding := ⟨3, 0, 0, 0⟩
      size := sgVC }

/-- C5: `box_fit` computes the vertical position from anchor-bottom,
else from the anchor-HORIZONTAL-center flag, else the top padding; in
particular a cell flagged only anchor-vertical-center lands at
`y = padding.top` (here 3, not the centered 45). -/
theorem box_fit_vertical_position_formula :
    (∀ (sg : SizeGrouping) (area : Size) (prop : CellProperties),
        (sg.box_fit area prop).2.1 =
          if prop.flags.anchorBottom then
            area.height - prop.padding.bottom - (sg.box_fit area prop).2.2.2
          else if prop.flags.anchorHorizontalCenter then
            area.height / 2 - (sg.box_fit area prop).2.2.2 / 2
          else prop.padding.top) ∧
    sgVC.box_fit ⟨100, 100⟩ cpVC = (0, 3, 10, 10) ∧
    (sgVC.box_fit ⟨100, 100⟩ cpVC).2.1 ≠
      (100 : ℚ) / 2 - (sgVC.box_fit ⟨100, 100⟩ cpVC).2.2.2 / 2 := by
  refine ⟨?_, by with_unfolding_all decide, by with_unfolding_all decide⟩
  intro sg area prop
  by_cases hb : prop.flags.anchorBottom <;>
    by_cases hc : prop.flags.anchorHorizontalCenter <;>
      simp [SizeGrouping.box_fit, hb, hc]

/-! ### C6 -/

/-- C6: two `impose` calls with the same width and height, the second
run on the layout state the first left behind, produce identical
callback invocation sequences. -/
theorem impose_deterministic_across_calls (t : TableLayout) (width height : ℚ) :
    (t.imposeTwice width height).1 = (t.imposeTwice width height).2 := rfl

/-! ### C7 -/

/-- C7: `impose` mutates no persisted state: the opcode sequence, the
cell/row/column default templates and the insertion cursor of the layout
it leaves behind all equal the input's. -/
theorem impose_preserves_layout_state (t : TableLayout) (width height : ℚ) :
    (t.imposeRun width height).1.opcodes = t.opcodes ∧
    (t.imposeRun width height).1.cell_defaults = t.cell_defaults ∧
    (t.imposeRun width height).1.row_defaults = t.row_defaults ∧
    (t.imposeRun width height).1.column_defaults = t.column_defaults ∧
    (t.imposeRun width height).1.row = t.row ∧
    (t.imposeRun width height).1.column = t.column :=
  ⟨rfl, rfl, rfl, rfl, rfl, rfl⟩

/-! ### C8 -/

/-- C8: cloning a `CellProperties` always yields a callback-free copy
with the same size grouping, flags, padding and colspan, and a value
produced by `with_defaults` (which clones whichever template it finds)
never carries a callback. -/
theorem clone_drops_callback (cp : CellProperties) (t : TableLayout) :
    cp.clone.callback = Option.none ∧ cp.clone.size = cp.size ∧
    cp.clone.flags = cp.flags ∧ cp.clone.padding = cp.padding ∧
    cp.clone.colspan = cp.colspan ∧
    (CellProperties.with_defaults t).callback = Option.none := by
  refine ⟨rfl, rfl, rfl, rfl, rfl, ?_⟩
  unfold CellProperties.with_defaults
  cases btreeGet t.column_defaults t.column with
  | some cv => rfl
  | none =>
    cases btreeGet t.row_defaults t.row with
    | some rv => rfl
    | none => rfl

/-! ### C9 -/

/-- C9: `SizeGrouping.join` is commutative and idempotent, and folding a
fixed multiset of groupings into an accumulator does not depend on the
order of the list (any permutation gives the same accumulated
grouping). -/
theorem join_comm_idem_order_invariant :
    (∀ a b : SizeGrouping, SizeGrouping.join a b = SizeGrouping.join b a) ∧
    (∀ a : SizeGrouping, SizeGrouping.join a a = a) ∧
    (∀ (l₁ l₂ : List SizeGrouping) (init : SizeGrouping), l₁.Perm l₂ →
      l₁.foldl SizeGrouping.join init = l₂.foldl SizeGrouping.join init) :=
  ⟨sizeGrouping_join_comm, sizeGrouping_join_idem,
   fun _ _ init p => foldl_join_perm p init⟩

/-- C9 witness: merging 64×64-preferred and default groupings in either
order gives the same accumulated grouping. -/
theorem join_comm_idem_order_invariant_witness :
    [colA, SizeGrouping.default].foldl SizeGrouping.join SizeGrouping.default =
    [SizeGrouping.default, colA].foldl SizeGrouping.join SizeGrouping.default :=
  join_comm_idem_order_invariant.2.2 [colA, SizeGrouping.default]
    [SizeGrouping.default, colA] SizeGrouping.default
    (List.Perm.swap SizeGrouping.default colA [])

/-! ### C10 -/

/-- The cell whose horizontal padding sum (200) exceeds any small
allotted width: preferred 50×0, left and right padding 100, callback 7. -/
def negPadCell : CellProperties :=
  { CellProperties.default with
      size := { SizeGrouping.default with preferred := ⟨50, 0⟩ }
      padding := ⟨0, 100, 0, 100⟩
      callback := some 7 }

/-- A one-cell program built from `negPadCell`. -/
def negPadLayout : TableLayout := { opcodes := [LayoutOp.cell negPadCell] }

/-- C10: `box_fit` does not clamp the fitted box to non-negative size:
for `negPadCell` (padding sum 200 > allotted width 32) the fitted width
is `-168`, and `impose 32 32` invokes the callback with that negative
width. -/
theorem box_fit_negative_width_reaches_callback :
    (negPadCell.size.box_fit ⟨32, 0⟩ negPadCell).2.2.1 = -168 ∧
    negPadLayout.impose 32 32 = some [(7, 100, 0, -168, 0)] ∧
    (-168 : ℚ) < 0 := by
  refine ⟨by with_unfolding_all decide, by with_unfolding_all decide, by decide⟩

end STL

namespace STL

/-! ### C3 -/

/-- Two 64×64-preferred cells in one row, callbacks 1 and 2. -/
def twoCell6464 : TableLayout :=
  { opcodes := [LayoutOp.cell (prefCell 64 64 1), LayoutOp.cell (prefCell 64 64 2)] }

/-- C3: in the deficit case of the width-distribution solver
(`error < 0`, positive total slack `ts`), every column's preferred width
becomes `max (preferred - d * (slack / ts)) 0` with
`slack = preferred - minimum` — clamped to be ≥ 0, not ≥ minimum — and
concretely a row of two 64×64-preferred cells imposed into 32×32 fires
each callback with width 16. -/
theorem deficit_distribution_formula :
    (∀ (col_sizes : List SizeGrouping) (has_xexpand : List Bool) (width : ℚ)
       (i : Nat) (c : SizeGrouping),
       col_sizes.foldl (fun e c => e - c.preferred.width) width < 0 →
       0 < (col_sizes.map (fun c => c.preferred.width - c.minimum.width)).foldl
             (fun acc s => acc + s) 0 →
       col_sizes.get? i = some c →
       (distributeWidth col_sizes has_xexpand width).get? i = some
         { c with preferred := { c.preferred with width := max (c.preferred.width - (-(col_sizes.foldl (fun e c => e - c.preferred.width) width)) * ((c.preferred.width - c.minimum.width) / (col_sizes.map (fun c => c.preferred.width - c.minimum.width)).foldl (fun acc s => acc + s) 0)) 0 } }) ∧
    twoCell6464.impose 32 32 = some [(1, 0, 0, 16, 32), (2, 16, 0, 16, 32)] := by
  refine ⟨?_, by with_unfolding_all decide⟩
  intro col_sizes has_xexpand width i c herr hts hget
  have hnot : ¬ (col_sizes.foldl (fun e c => e - c.preferred.width) width > 0) := by
    linarith
  simp only [distributeWidth]
  rw [if_neg hnot, if_pos herr, List.map_map, zipWith_map_self_get, hget]
  simp only [Option.map_some', Function.comp]
  have harith :
      c.minimum.width + ((c.preferred.width - c.minimum.width) -
        (-(col_sizes.foldl (fun e c => e - c.preferred.width) width)) *
          ((c.preferred.width - c.minimum.width) /
            (col_sizes.map (fun c => c.preferred.width - c.minimum.width)).foldl
              (fun acc s => acc + s) 0)) =
      c.preferred.width -
        (-(col_sizes.foldl (fun e c => e - c.preferred.width) width)) *
          ((c.preferred.width - c.minimum.width) /
            (col_sizes.map (fun c => c.preferred.width - c.minimum.width)).foldl
              (fun acc s => acc + s) 0) := by ring
  rw [harith]

/-- C3 witness: two columns of preferred width 64 and minimum 0 with
available width 32 are in deficit (error −96) with total slack 128, and
column 0 resolves to preferred width 16. -/
theorem deficit_distribution_formula_witness :
    ([colA, colA].foldl (fun e c => e - c.preferred.width) 32 < 0) ∧
    (0 < ([colA, colA].map (fun c => c.preferred.width - c.minimum.width)).foldl
        (fun acc s => acc + s) 0) ∧
    (distributeWidth [colA, colA] [false, false] 32).get? 0 =
      some { colA with preferred := { colA.preferred with width := 16 } } := by
  refine ⟨by norm_num [colA, SizeGrouping.default], by norm_num [colA, SizeGrouping.default], ?_⟩
  have h := deficit_distribution_formula.1 [colA, colA] [false, false] 32 0 colA
    (by norm_num [colA, SizeGrouping.default]) (by norm_num [colA, SizeGrouping.default]) rfl
  rw [h]
  norm_num [colA, SizeGrouping.default, max_def]

/-! ### C4 -/

/-- Two cells in one row, both 64×64-preferred, the second flagged
expand-horizontal only, callbacks 1 and 2. -/
def expandSecond : TableLayout :=
  { opcodes := [LayoutOp.cell (prefCell 64 64 1),
                LayoutOp.cell { prefCell 64 64 2 with
                                  flags := { expandHorizontal := true } }] }

/-- The placement-pass state at the origin, before any opcode. -/
def pStStart : PlaceState := { x := 0, y := 0, row := 0, col := 0, events := [] }

/-- The placement-pass state after fitting one 64×64 cell at the origin. -/
def pStAfter : PlaceState :=
  { x := 64, y := 0, row := 0, col := 1, events := [(1, 0, 0, 64, 64)] }

/-- C4: after fitting a non-zero-span cell, the placement cursor `x`
advances by the cell's full allotted width (the sum of the spanned
columns' resolved preferred widths, as accumulated by `spanWidth`), not
by the fitted box width; concretely, in the two-cell program whose
second cell is expand-horizontal, imposed into 320×240, the callbacks
fire at `(x=0, w=64)` and `(x=64, w=64)` even though the second cell's
allotted width is 256. -/
theorem placement_advances_by_allotted_width :
    (∀ (col_sizes row_sizes : List SizeGrouping) (st st' : PlaceState)
       (cp : CellProperties) (w : ℚ) (col : Nat),
       cp.colspan ≠ 0 →
       placeOp col_sizes row_sizes st (LayoutOp.cell cp) = some st' →
       spanWidth col_sizes cp.colspan 0 st.col = some (w, col) →
       st'.x = st.x + w ∧ st'.col = col) ∧
    expandSecond.impose 320 240 = some [(1, 0, 0, 64, 64), (2, 64, 0, 64, 64)] := by
  refine ⟨?_, by with_unfolding_all decide⟩
  intro col_sizes row_sizes st st' cp w col hspan hplace hsw
  simp only [placeOp] at hplace
  cases hrow : row_sizes.get? st.row with
  | none => rw [hrow] at hplace; simp at hplace
  | some rowSize =>
    rw [hrow] at hplace
    cases hcs : cp.colspan with
    | zero => exact absurd hcs hspan
    | succ n =>
      rw [hcs] at hplace hsw
      rw [hsw] at hplace
      simp at hplace
      subst hplace
      exact ⟨rfl, rfl⟩

/-- C4 witness: a single 64-wide column; the placement step on a
64×64-preferred cell from the origin state advances the cursor by the
allotted width 64 and the column cursor to 1. -/
theorem placement_advances_by_allotted_width_witness :
    pStAfter.x = pStStart.x + 64 ∧ pStAfter.col = 1 :=
  placement_advances_by_allotted_width.1 [colA] [colA] pStStart pStAfter
    (prefCell 64 64 1) 64 1 (by with_unfolding_all decide)
    (by with_unfolding_all decide) (by with_unfolding_all decide)

end STL
